import Mathlib

/-
Verification development for the pbalign temporary-resource core:
`pbalign/utils/tempfileutil.py` (classes TempFile and TempFileManager) and
the build-once coordinator `GMAPService._gmapCreateDB` from
`pbalign/alignservice/gmap.py`.

The filesystem and the fallible system calls (os.remove, shutil.rmtree,
os.makedirs, the tempfile module, touch and the external gmap_build
command) are modelled explicitly so that every operation of the source is
a total Lean function on the program state plus the modelled environment.
-/

namespace Pbalign

/-- Modelled from the spec: the filesystem seen by the program, the
environment behind `pbalign.utils.fileutil.isExist` (a module that is not
part of the sources at hand; per the spec it is an ordinary existence
check), `os.remove`, `shutil.rmtree`, `os.makedirs` and the `tempfile`
module.  `files` and `dirs` list the paths that currently exist; `cnt`
feeds the fresh names generated by `tempfile.mkstemp` / `tempfile.mkdtemp`. -/
structure FS where
  files : List String
  dirs : List String
  cnt : Nat
deriving Repr, DecidableEq

/-- Modelled from the spec: `pbalign.utils.fileutil.isExist` is the
environment-supplied existence predicate (ordinary filesystem stat),
true when the path exists, whatever its kind. -/
def FS.isExist (fs : FS) (p : String) : Bool :=
  decide (p ∈ fs.files) || decide (p ∈ fs.dirs)

/-- The `os.path.isdir` check. -/
def FS.isdir (fs : FS) (p : String) : Bool :=
  decide (p ∈ fs.dirs)

/-- The fresh path the tempfile module generates inside `dir` for the
given name affixes: a name that has not been handed out before. -/
def FS.freshPath (fs : FS) (dir pfx sfx : String) : String :=
  dir ++ "/" ++ pfx ++ "tmp" ++ toString fs.cnt ++ sfx

/-- Model of `tempfile.mkstemp`: create a fresh empty file under `dir`
and return its path together with the updated filesystem. -/
def FS.mkstemp (fs : FS) (dir sfx pfx : String) : String × FS :=
  let p := fs.freshPath dir pfx sfx
  (p, { fs with files := p :: fs.files, cnt := fs.cnt + 1 })

/-- Model of `tempfile.mkdtemp`: create a fresh directory under `dir`
and return its path together with the updated filesystem. -/
def FS.mkdtemp (fs : FS) (dir sfx pfx : String) : String × FS :=
  let p := fs.freshPath dir pfx sfx
  (p, { fs with dirs := p :: fs.dirs, cnt := fs.cnt + 1 })

/-- Model of a successful `os.remove p`: the file no longer exists. -/
def FS.removeFile (fs : FS) (p : String) : FS :=
  { fs with files := fs.files.filter (fun q => decide (q ≠ p)) }

/-- Does path `p` lie at or under directory `d`?  `shutil.rmtree d`
destroys exactly these paths. -/
def underOrEq (d p : String) : Bool :=
  decide (p = d) || (d ++ "/").data.isPrefixOf p.data

/-- Model of a successful `shutil.rmtree d`: the directory and everything
below it no longer exist. -/
def FS.rmtree (fs : FS) (d : String) : FS :=
  { fs with files := fs.files.filter (fun q => !underOrEq d q),
            dirs := fs.dirs.filter (fun q => !underOrEq d q) }

/-- Model of `touch p` creating a file. -/
def FS.addFile (fs : FS) (p : String) : FS :=
  { fs with files := p :: fs.files }

/-- Model of `os.makedirs p` creating a directory. -/
def FS.addDir (fs : FS) (p : String) : FS :=
  { fs with dirs := p :: fs.dirs }

/-- Class `TempFile` of tempfileutil.py: one tracked path, the ownership
flag, and whether it is a directory. -/
structure TempFile where
  name : String
  own : Bool
  isDir : Bool
deriving Repr, DecidableEq

/-- The state of class `TempFileManager`: the default root directory and
the two registry collections. -/
structure TempFileManager where
  defaultRootDir : String
  fileDB : List TempFile
  dirDB : List TempFile
deriving Repr, DecidableEq

/-- Every path name registered across both collections, files first. -/
def regNames (m : TempFileManager) : List String :=
  m.fileDB.map TempFile.name ++ m.dirDB.map TempFile.name

/-- Outcomes of the fallible deletion calls performed by `CleanUp`:
whether `os.remove` succeeds on a path, and how many leading attempts of
`shutil.rmtree` on a path fail before one succeeds. -/
structure World where
  removeOk : String → Bool
  rmtreeFails : String → Nat

/-- Environment of `SetRootDir`: whether `os.makedirs` succeeds on a
path, whether the no-argument `tempfile.mkdtemp()` fallback succeeds, and
the system temporary directory it would use. -/
structure SysEnv where
  makedirsOk : String → Bool
  defaultTmpOk : Bool
  defaultTmpDir : String

/-- `TempFileManager._isRegistered`: normalize the argument with
`path.abspath(path.expanduser(.))` (the parameter `norm`), then look it
up in both collections. -/
def TempFileManager.isRegistered (norm : String → String) (m : TempFileManager)
    (tempFileName : String) : Bool :=
  let t := norm tempFileName
  decide (t ∈ m.fileDB.map TempFile.name) || decide (t ∈ m.dirDB.map TempFile.name)

/-- `TempFileManager._RegisterTmpFile`: append to the matching collection
and hand back the name. -/
def TempFileManager.RegisterTmpFile (m : TempFileManager) (tmpFile : TempFile) :
    String × TempFileManager :=
  if tmpFile.isDir then (tmpFile.name, { m with dirDB := m.dirDB ++ [tmpFile] })
  else (tmpFile.name, { m with fileDB := m.fileDB ++ [tmpFile] })

/-- The final value of `errMsg` at the end of the four sequential checks
of `RegisterExistingTmpFile` (later checks overwrite earlier ones); `p`
is the already-normalized path. -/
def registerExistingErrMsg (norm : String → String) (m : TempFileManager)
    (fs : FS) (p : String) (isDir : Bool) : String :=
  let fileOrDir := if isDir then "directory" else "file"
  let e1 := if !isDir && !(fs.isExist p) then
      "Failed to register a directory as a file." else ""
  let e2 := if isDir && !(fs.isdir p) then
      "Failied to register a file as a directory." else e1
  let e3 := if m.isRegistered norm p then
      "Failed to register " ++ fileOrDir ++ " " ++ p ++
        " as it has been registered." else e2
  if !(fs.isExist p) then
    "Failed to register " ++ fileOrDir ++ " " ++ p ++
      " as it does not exist." else e3

/-- `TempFileManager.RegisterExistingTmpFile`: normalize, run the four
sequential error checks, raise IOError — modelled as `Except.error` —
when the final `errMsg` is nonempty, and append to the registry
otherwise.  The filesystem is not modified. -/
def TempFileManager.RegisterExistingTmpFile (norm : String → String)
    (m : TempFileManager) (fs : FS) (thisPath : String) (own isDir : Bool) :
    Except String String × TempFileManager :=
  let p := norm thisPath
  let e := registerExistingErrMsg norm m fs p isDir
  if e ≠ "" then (.error e, m)
  else
    let r := m.RegisterTmpFile ⟨p, own, isDir⟩
    (.ok r.1, r.2)

/-- Body of `RegisterNewTmpFile` once the root directory to use is fixed:
create the temp file or directory, normalize, run the defensive double
registration check, then register as owned. -/
def TempFileManager.registerNewUnder (norm : String → String) (m : TempFileManager)
    (fs : FS) (isDir : Bool) (rootDir sfx pfx : String) :
    Except String String × TempFileManager × FS :=
  let fileOrDir := if isDir then "directory" else "file"
  let pr := if isDir then fs.mkdtemp rootDir sfx pfx else fs.mkstemp rootDir sfx pfx
  let thisPath := norm pr.1
  if m.isRegistered norm thisPath then
    (.error ("Failed to register a temporary " ++ fileOrDir ++ " " ++ thisPath
        ++ " twice."), m, pr.2)
  else
    let r := m.RegisterTmpFile ⟨thisPath, true, isDir⟩
    (.ok r.1, r.2, pr.2)

/-- `TempFileManager.RegisterNewTmpFile`: with no explicit root, fall back
to `defaultRootDir`, raising IOError when that is unset. -/
def TempFileManager.RegisterNewTmpFile (norm : String → String) (m : TempFileManager)
    (fs : FS) (isDir : Bool) (rootDir sfx pfx : String) :
    Except String String × TempFileManager × FS :=
  if rootDir = "" then
    if m.defaultRootDir = "" then
      (.error "TempManager default root dir not set.", m, fs)
    else m.registerNewUnder norm fs isDir m.defaultRootDir sfx pfx
  else m.registerNewUnder norm fs isDir rootDir sfx pfx

/-- Final fallback of `SetRootDir`: `tempfile.mkdtemp()` in the system
temporary directory; on failure the root becomes the empty string. -/
def setRootFallback (env : SysEnv) (m : TempFileManager) (fs : FS) :
    TempFileManager × FS :=
  if env.defaultTmpOk then
    let pr := fs.mkdtemp env.defaultTmpDir "" ""
    ({ m with dirDB := m.dirDB ++ [⟨pr.1, true, true⟩],
              defaultRootDir := pr.1 }, pr.2)
  else ({ m with defaultRootDir := "" }, fs)

/-- `TempFileManager.SetRootDir`: if the requested root exists as a
directory, create a private subdirectory inside it and use that; if it
does not exist, try to create it; on any failure (or empty request) fall
back to the system temporary directory. -/
def TempFileManager.SetRootDir (norm : String → String) (env : SysEnv)
    (m : TempFileManager) (fs : FS) (rootDir : String) : TempFileManager × FS :=
  if rootDir = "" then setRootFallback env m fs
  else
    let r := norm rootDir
    if fs.isdir r then
      let pr := fs.mkdtemp r "" ""
      ({ m with dirDB := m.dirDB ++ [⟨pr.1, true, true⟩],
                defaultRootDir := pr.1 }, pr.2)
    else if !(fs.isExist r) then
      if env.makedirsOk r then
        ({ m with dirDB := m.dirDB ++ [⟨r, true, true⟩],
                  defaultRootDir := r }, fs.addDir r)
      else setRootFallback env m fs
    else setRootFallback env m fs

/-- One pass of the rmtree retry loop of `CleanUp`, recursing on the
number of iterations the `while times < maxTry` loop may still run
(which drops by one with every failed attempt, since each failure does
`times += 1`).  The first `f` rmtree attempts on the directory fail.
Returns the final value of `times`, whether some attempt succeeded, and
the total seconds slept (`time.sleep(3)` after each failed attempt). -/
def rmtreeRun (f : Nat) (times : Nat) : Nat → Nat × Bool × Nat
  | 0 => (times, false, 0)
  | remaining + 1 =>
    if times < f then
      let r := rmtreeRun f (times + 1) remaining
      (r.1, r.2.1, r.2.2 + 3)
    else (times, true, 0)

/-- The rmtree retry loop of `CleanUp` with `times` and `maxTry` as in
the source: run while `times < maxTry`, that is, for at most
`maxTry - times` iterations. -/
def rmtreeGo (f times maxTry : Nat) : Nat × Bool × Nat :=
  rmtreeRun f times (maxTry - times)

/-- The first while loop of `CleanUp`, which pops registered files: we
process the reversed `fileDB`.  A failing `os.remove` is not caught in
the source, so it propagates as `Except.error`. -/
def cleanFilesRev (w : World) (realDelete : Bool) :
    List TempFile → FS → Except String FS
  | [], fs => .ok fs
  | obj :: rest, fs =>
    if realDelete && obj.own && fs.isExist obj.name then
      if w.removeOk obj.name then
        cleanFilesRev w realDelete rest (fs.removeFile obj.name)
      else .error ("Failed to remove a temporary file " ++ obj.name)
    else cleanFilesRev w realDelete rest fs

/-- The second while loop of `CleanUp`, which pops registered
directories: we process the reversed `dirDB`.  Each directory gets the
retry loop; exhausting all tries logs one warning (counted) and moves
on.  Returns the final filesystem and the number of warnings. -/
def cleanDirsRev (w : World) (realDelete : Bool) :
    List TempFile → FS → FS × Nat
  | [], fs => (fs, 0)
  | obj :: rest, fs =>
    if realDelete && obj.own && fs.isExist obj.name then
      let r := rmtreeGo (w.rmtreeFails obj.name) 0 5
      let fs2 := if r.2.1 then fs.rmtree obj.name else fs
      let pr := cleanDirsRev w realDelete rest fs2
      (pr.1, pr.2 + (if 5 ≤ r.1 then 1 else 0))
    else cleanDirsRev w realDelete rest fs

/-- `TempFileManager.CleanUp`: drain the file registry (popping from the
end), then the directory registry, then clear the default root.  On the
uncaught `os.remove` failure the exception propagates and no state is
returned. -/
def TempFileManager.CleanUp (w : World) (m : TempFileManager) (fs : FS)
    (realDelete : Bool) : Except String (TempFileManager × FS × Nat) :=
  match cleanFilesRev w realDelete m.fileDB.reverse fs with
  | .error e => .error e
  | .ok fs1 =>
    let pr := cleanDirsRev w realDelete m.dirDB.reverse fs1
    .ok ({ defaultRootDir := "", fileDB := [], dirDB := [] }, pr.1, pr.2)

/-- `os.path.join` as used on the db root and name. -/
def pathJoin (a b : String) : String := a ++ "/" ++ b

/-- `os.path.dirname`: everything before the last path separator. -/
def dirname (p : String) : String :=
  String.intercalate "/" ((p.splitOn "/").dropLast)

/-- Environment of `_gmapCreateDB`: whether the `touch` of the lock file
succeeds and whether the external `gmap_build` command exits zero. -/
structure BuildEnv where
  touchOk : Bool
  buildOk : Bool

/-- Result of `_gmapCreateDB` in the single-process model. -/
inductive GmapOutcome where
  | ok (rootAndName : String × String)
  | err (msg : String)
  | blocked
deriving Repr, DecidableEq

/-- `GMAPService._gmapCreateDB` from the computation of `dbPath` and
`dbLock` on.  The wait loop (`while isExist(dbLock): sleep(10)`) is
modelled for a single process: nothing else changes the filesystem while
this process sleeps, so a lock that exists when the loop is reached never
disappears and the call blocks forever (`GmapOutcome.blocked`).  Returns
the outcome, the final filesystem, and how many times the external
`gmap_build` command was invoked. -/
def gmapCreateDB (env : BuildEnv) (dbRoot dbName : String) (fs : FS) :
    GmapOutcome × FS × Nat :=
  let dbPath := pathJoin dbRoot dbName
  let dbLock := dbPath ++ ".lock"
  if fs.isExist dbPath && !(fs.isExist dbLock) then (.ok (dbRoot, dbName), fs, 0)
  else if fs.isExist dbLock then (.blocked, fs, 0)
  else if !(fs.isExist dbPath) then
    if env.touchOk then
      let fs1 := fs.addFile dbLock
      if env.buildOk then
        let fs2 := (fs1.addDir dbPath).removeFile dbLock
        (.ok (dbRoot, dbName), fs2, 1)
      else
        (.err "Failed to build GMAP db.", fs1.removeFile dbLock, 1)
    else
      (.err "Failed to create the lock file.", fs.removeFile dbLock, 0)
  else (.ok (dbRoot, dbName), fs, 0)

/-- Lines 205 to 219 of gmap.py: choose the database root and name from
the location of the reference file. -/
def gmapDBRootAndName (referenceFile : String) (isWithinRepository : Bool)
    (tempRootDir : String) (randSfx : Nat) : String × String :=
  if isWithinRepository then (dirname (dirname referenceFile), "gmap_db")
  else (tempRootDir, "gmap_db_" ++ toString randSfx)

/-- Did the call return normally? -/
def exceptIsOk {α : Type} (e : Except String α) : Bool :=
  match e with
  | .ok _ => true
  | .error _ => false

end Pbalign

namespace Pbalign

/-- A nonempty left factor keeps a string concatenation nonempty. -/
lemma append_ne_empty_left (a b : String) (h : a ≠ "") : a ++ b ≠ "" := by
  intro hc
  have hl := congrArg String.length hc
  rw [String.length_append] at hl
  have h0 : ("" : String).length = 0 := rfl
  rw [h0] at hl
  have ha : a.length = 0 := by omega
  cases a with
  | mk data =>
    cases data with
    | nil => exact h rfl
    | cons c cs => simp [String.length] at ha

/-- Appending a nonempty string changes a string. -/
lemma append_ne_self (a b : String) (h : b ≠ "") : a ++ b ≠ a := by
  intro hc
  have hl := congrArg String.length hc
  rw [String.length_append] at hl
  have hb : b.length = 0 := by omega
  cases b with
  | mk data =>
    cases data with
    | nil => exact h rfl
    | cons c cs => simp [String.length] at hb

end Pbalign

namespace Pbalign

/-- Claim C3 (defect witness in the code): adopting an existing directory
with isDir = false does not raise.  The first check of
`RegisterExistingTmpFile` tests `not isExist(thisPath)` where its own
error text ("Failed to register a directory as a file.") says it meant
to test the filesystem kind, so an existing directory adopted as a file
passes every check and is appended to the file collection. -/
theorem claim_C3_eval :
    TempFileManager.RegisterExistingTmpFile id ⟨"", [], []⟩ ⟨[], ["/d"], 0⟩ "/d" false false
      = (.ok "/d", ⟨"", [⟨"/d", false, false⟩], []⟩) := by
  rfl

/-- Claim C1 is refuted here: a registry holding one owned, existing file
whose `os.remove` fails makes `CleanUp(True)` raise — the file loop of the
source has no try/except, so the failure propagates instead of being
logged. -/
theorem claim_C1_counterexample :
    TempFileManager.CleanUp ⟨fun _ => false, fun _ => 0⟩
      ⟨"/t", [⟨"/t/f", true, false⟩], []⟩ ⟨["/t/f"], ["/t"], 0⟩ true
      = .error "Failed to remove a temporary file /t/f" := by
  rfl

/-- Claim C5 is refuted here: an owned, existing directory whose
recursive deletion fails all 5 attempts is still on disk after
`CleanUp(True)` returns normally (with one warning), so not every
still-existing owned resource is deleted. -/
theorem claim_C5_counterexample :
    TempFileManager.CleanUp ⟨fun _ => true, fun _ => 5⟩
      ⟨"/d", [], [⟨"/d", true, true⟩]⟩ ⟨[], ["/d"], 0⟩ true
      = .ok (⟨"", [], []⟩, ⟨[], ["/d"], 0⟩, 1) ∧
    "/d" ∈ FS.dirs ⟨[], ["/d"], 0⟩ := by
  exact ⟨rfl, by simp⟩

/-- Claim C6 is refuted here: when no working root is established
(`defaultRootDir` is empty, e.g. after a `CleanUp`), a `RegisterNewTmpFile`
call with the root unset raises IOError at once — there is no lazy
resolution through `SetRootDir`. -/
theorem claim_C6_counterexample :
    TempFileManager.RegisterNewTmpFile id ⟨"", [], []⟩ ⟨[], [], 0⟩ false "" "" ""
      = (.error "TempManager default root dir not set.", ⟨"", [], []⟩, ⟨[], [], 0⟩) := by
  rfl

/-- Claim C6 as amended: with the root argument unset, RegisterNewTmpFile
uses the current working root `defaultRootDir` when that is set, behaving
exactly as if that root had been passed explicitly; when the working root
is unset it raises IOError instead of lazily resolving one. -/
theorem claim_C6 (norm : String → String) (m : TempFileManager) (fs : FS)
    (isDir : Bool) (sfx pfx : String) :
    (m.defaultRootDir = "" →
      m.RegisterNewTmpFile norm fs isDir "" sfx pfx
        = (.error "TempManager default root dir not set.", m, fs)) ∧
    (m.defaultRootDir ≠ "" →
      m.RegisterNewTmpFile norm fs isDir "" sfx pfx
        = m.RegisterNewTmpFile norm fs isDir m.defaultRootDir sfx pfx) := by
  constructor
  · intro h
    simp [TempFileManager.RegisterNewTmpFile, h]
  · intro h
    simp [TempFileManager.RegisterNewTmpFile, h]

/-- Concrete instance of the amended claim C6. -/
theorem claim_C6_witness :
    (TempFileManager.RegisterNewTmpFile id ⟨"", [], []⟩ ⟨[], [], 0⟩ false "" "" ""
      = (.error "TempManager default root dir not set.", ⟨"", [], []⟩, ⟨[], [], 0⟩)) ∧
    (TempFileManager.RegisterNewTmpFile id ⟨"/r", [], []⟩ ⟨[], ["/r"], 0⟩ false "" "" ""
      = TempFileManager.RegisterNewTmpFile id ⟨"/r", [], []⟩ ⟨[], ["/r"], 0⟩ false "/r" "" "") :=
  ⟨(claim_C6 id ⟨"", [], []⟩ ⟨[], [], 0⟩ false "" "").1 rfl,
   (claim_C6 id ⟨"/r", [], []⟩ ⟨[], ["/r"], 0⟩ false "" "").2 (by decide)⟩

/-- Claim C10: whenever RegisterExistingTmpFile raises — for any reason —
the registry is unchanged: every check of the source runs before the
single `_RegisterTmpFile` append. -/
theorem claim_C10 (norm : String → String) (m : TempFileManager) (fs : FS)
    (p : String) (own isDir : Bool)
    (h : exceptIsOk (m.RegisterExistingTmpFile norm fs p own isDir).1 = false) :
    (m.RegisterExistingTmpFile norm fs p own isDir).2 = m := by
  simp only [TempFileManager.RegisterExistingTmpFile] at h ⊢
  split
  · rfl
  · rename_i hcond
    rw [if_neg hcond] at h
    simp [exceptIsOk] at h

/-- Concrete instance of claim C10: adopting a nonexistent path fails and
leaves the registry as it was. -/
theorem claim_C10_witness :
    exceptIsOk (TempFileManager.RegisterExistingTmpFile id ⟨"", [], []⟩ ⟨[], [], 0⟩
        "/nope" false false).1 = false ∧
    (TempFileManager.RegisterExistingTmpFile id ⟨"", [], []⟩ ⟨[], [], 0⟩
        "/nope" false false).2 = ⟨"", [], []⟩ :=
  ⟨rfl, claim_C10 id ⟨"", [], []⟩ ⟨[], [], 0⟩ "/nope" false false rfl⟩

end Pbalign

namespace Pbalign

/-- When fewer failures than remaining tries are ahead, the retry loop
stops at the first successful attempt with no extra sleeping. -/
lemma rmtreeRun_success : ∀ (rem times f : Nat), times ≤ f → f < times + rem →
    rmtreeRun f times rem = (f, true, 3 * (f - times)) := by
  intro rem
  induction rem with
  | zero => intro times f h1 h2; omega
  | succ n ih =>
    intro times f h1 h2
    by_cases hc : times < f
    · have hrec := ih (times + 1) f (by omega) (by omega)
      simp [rmtreeRun, hc, hrec]
      omega
    · have he : times = f := by omega
      subst he
      simp [rmtreeRun, hc]

/-- When at least as many failures as remaining tries are ahead, the
retry loop exhausts all tries, sleeping 3 seconds after each. -/
lemma rmtreeRun_failure : ∀ (rem times f : Nat), times + rem ≤ f →
    rmtreeRun f times rem = (times + rem, false, 3 * rem) := by
  intro rem
  induction rem with
  | zero => intro times f _; simp [rmtreeRun]
  | succ n ih =>
    intro times f h
    have hc : times < f := by omega
    have hrec := ih (times + 1) f (by omega)
    simp [rmtreeRun, hc, hrec]
    omega

/-- Fewer than 5 failures: the loop deletes the directory, `times` stays
below `maxTry`, so no warning fires. -/
lemma rmtreeGo_lt (f : Nat) (h : f < 5) : rmtreeGo f 0 5 = (f, true, 3 * f) := by
  have hr := rmtreeRun_success 5 0 f (by omega) (by omega)
  simpa [rmtreeGo] using hr

/-- At least 5 failures: all 5 tries are spent, the directory survives,
and `times = maxTry` makes the warning fire. -/
lemma rmtreeGo_ge (f : Nat) (h : 5 ≤ f) : rmtreeGo f 0 5 = (5, false, 15) := by
  have hr := rmtreeRun_failure 5 0 f (by omega)
  simpa [rmtreeGo] using hr

end Pbalign

namespace Pbalign

/-- Claim C8: a directory whose recursive deletion fails fewer than 5
times is deleted with no warning; one failing all 5 attempts (each
followed by a 3-second sleep) triggers exactly one warning, stays on
disk, and cleanup proceeds to delete the remaining directories. -/
theorem claim_C8 :
    (∀ f : Nat, f < 5 → rmtreeGo f 0 5 = (f, true, 3 * f)) ∧
    (∀ f : Nat, 5 ≤ f → rmtreeGo f 0 5 = (5, false, 15)) ∧
    (∀ (w : World) (root : String) (a b : TempFile) (fs : FS),
      a.own = true → b.own = true →
      a.name ∈ fs.dirs → b.name ∈ fs.dirs →
      w.rmtreeFails a.name < 5 → 5 ≤ w.rmtreeFails b.name →
      underOrEq a.name b.name = false →
      TempFileManager.CleanUp w ⟨root, [], [a, b]⟩ fs true
        = .ok (⟨"", [], []⟩, fs.rmtree a.name, 1) ∧
      b.name ∈ (fs.rmtree a.name).dirs ∧ a.name ∉ (fs.rmtree a.name).dirs) := by
  refine ⟨rmtreeGo_lt, rmtreeGo_ge, ?_⟩
  intro w root a b fs ha hb hafs hbfs hfa hfb hne
  have hwa : ¬ (5 ≤ w.rmtreeFails a.name) := by omega
  refine ⟨?_, ?_, ?_⟩
  · simp [TempFileManager.CleanUp, cleanFilesRev, cleanDirsRev, FS.isExist,
      ha, hb, hafs, hbfs, rmtreeGo_ge _ hfb, rmtreeGo_lt _ hfa, hwa]
  · simp [FS.rmtree, List.mem_filter, hbfs, hne]
  · simp [FS.rmtree, List.mem_filter, underOrEq]

/-- Concrete instance of claim C8. -/
theorem claim_C8_witness :
    rmtreeGo 2 0 5 = (2, true, 6) ∧ rmtreeGo 7 0 5 = (5, false, 15) ∧
    (TempFileManager.CleanUp ⟨fun _ => true, fun p => if p = "/x/b" then 5 else 2⟩
        ⟨"/x", [], [⟨"/x/a", true, true⟩, ⟨"/x/b", true, true⟩]⟩
        ⟨[], ["/x/a", "/x/b"], 0⟩ true
      = .ok (⟨"", [], []⟩, FS.rmtree ⟨[], ["/x/a", "/x/b"], 0⟩ "/x/a", 1) ∧
      "/x/b" ∈ (FS.rmtree ⟨[], ["/x/a", "/x/b"], 0⟩ "/x/a").dirs ∧
      "/x/a" ∉ (FS.rmtree ⟨[], ["/x/a", "/x/b"], 0⟩ "/x/a").dirs) :=
  ⟨claim_C8.1 2 (by omega), claim_C8.2.1 7 (by omega),
   claim_C8.2.2 ⟨fun _ => true, fun p => if p = "/x/b" then 5 else 2⟩ "/x"
     ⟨"/x/a", true, true⟩ ⟨"/x/b", true, true⟩ ⟨[], ["/x/a", "/x/b"], 0⟩
     rfl rfl (by decide) (by decide) (by decide) (by decide) (by decide)⟩

/-- Claim C7: when the preferred root already exists as a directory,
`SetRootDir` does not use it directly: it creates a fresh private
subdirectory inside it, registers that subdirectory as an owned
directory, and makes the subdirectory — a path strictly inside and
distinct from the preferred root — the new working root. -/
theorem claim_C7 (norm : String → String) (env : SysEnv) (m : TempFileManager)
    (fs : FS) (rootDir : String) (h0 : rootDir ≠ "")
    (h1 : fs.isdir (norm rootDir) = true) :
    (m.SetRootDir norm env fs rootDir).1.defaultRootDir
        = fs.freshPath (norm rootDir) "" "" ∧
    (m.SetRootDir norm env fs rootDir).1.dirDB
        = m.dirDB ++ [⟨fs.freshPath (norm rootDir) "" "", true, true⟩] ∧
    fs.freshPath (norm rootDir) "" "" ∈ (m.SetRootDir norm env fs rootDir).2.dirs ∧
    fs.freshPath (norm rootDir) "" "" ≠ norm rootDir ∧
    (∃ s, s ≠ "" ∧ fs.freshPath (norm rootDir) "" "" = norm rootDir ++ "/" ++ s) := by
  have hfresh : fs.freshPath (norm rootDir) "" ""
      = norm rootDir ++ "/" ++ ("tmp" ++ toString fs.cnt) := by
    simp only [FS.freshPath, String.append_empty, String.append_assoc]
  refine ⟨?_, ?_, ?_, ?_, ?_⟩
  · simp [TempFileManager.SetRootDir, h0, h1, FS.mkdtemp]
  · simp [TempFileManager.SetRootDir, h0, h1, FS.mkdtemp]
  · simp [TempFileManager.SetRootDir, h0, h1, FS.mkdtemp]
  · rw [hfresh, String.append_assoc]
    exact append_ne_self (norm rootDir) ("/" ++ ("tmp" ++ toString fs.cnt))
      (append_ne_empty_left "/" _ (by decide))
  · exact ⟨"tmp" ++ toString fs.cnt,
      append_ne_empty_left "tmp" _ (by decide), hfresh⟩

/-- Concrete instance of claim C7. -/
theorem claim_C7_witness :
    (TempFileManager.SetRootDir id ⟨fun _ => true, true, "/tmp"⟩ ⟨"", [], []⟩
        ⟨[], ["/scratch"], 0⟩ "/scratch").1.defaultRootDir
      = FS.freshPath ⟨[], ["/scratch"], 0⟩ "/scratch" "" "" ∧
    (TempFileManager.SetRootDir id ⟨fun _ => true, true, "/tmp"⟩ ⟨"", [], []⟩
        ⟨[], ["/scratch"], 0⟩ "/scratch").1.dirDB
      = [] ++ [⟨FS.freshPath ⟨[], ["/scratch"], 0⟩ "/scratch" "" "", true, true⟩] ∧
    FS.freshPath ⟨[], ["/scratch"], 0⟩ "/scratch" "" ""
      ∈ (TempFileManager.SetRootDir id ⟨fun _ => true, true, "/tmp"⟩ ⟨"", [], []⟩
        ⟨[], ["/scratch"], 0⟩ "/scratch").2.dirs ∧
    FS.freshPath ⟨[], ["/scratch"], 0⟩ "/scratch" "" "" ≠ id "/scratch" ∧
    (∃ s, s ≠ "" ∧ FS.freshPath ⟨[], ["/scratch"], 0⟩ "/scratch" "" ""
      = id "/scratch" ++ "/" ++ s) :=
  claim_C7 id ⟨fun _ => true, true, "/tmp"⟩ ⟨"", [], []⟩ ⟨[], ["/scratch"], 0⟩
    "/scratch" (by decide) (by decide)

end Pbalign

namespace Pbalign

/-- Claim C2: when the target artifact exists and the lock marker does
not, `_gmapCreateDB` returns `(root, name)` at once without running the
build command; consequently two consecutive calls for the same
`(root, name)` in one process, the first of which builds successfully,
run the builder exactly once (1 invocation, then 0). -/
theorem claim_C2 (env : BuildEnv) (dbRoot dbName : String) (fs : FS) :
    (fs.isExist (pathJoin dbRoot dbName) = true →
      fs.isExist (pathJoin dbRoot dbName ++ ".lock") = false →
      gmapCreateDB env dbRoot dbName fs = (.ok (dbRoot, dbName), fs, 0)) ∧
    (env.touchOk = true → env.buildOk = true →
      fs.isExist (pathJoin dbRoot dbName) = false →
      fs.isExist (pathJoin dbRoot dbName ++ ".lock") = false →
      gmapCreateDB env dbRoot dbName fs
        = (.ok (dbRoot, dbName),
           ((fs.addFile (pathJoin dbRoot dbName ++ ".lock")).addDir
             (pathJoin dbRoot dbName)).removeFile (pathJoin dbRoot dbName ++ ".lock"),
           1) ∧
      gmapCreateDB env dbRoot dbName
          (((fs.addFile (pathJoin dbRoot dbName ++ ".lock")).addDir
            (pathJoin dbRoot dbName)).removeFile (pathJoin dbRoot dbName ++ ".lock"))
        = (.ok (dbRoot, dbName),
           ((fs.addFile (pathJoin dbRoot dbName ++ ".lock")).addDir
             (pathJoin dbRoot dbName)).removeFile (pathJoin dbRoot dbName ++ ".lock"),
           0)) := by
  constructor
  · intro h1 h2
    simp [gmapCreateDB, h1, h2]
  · intro ht hb h1 h2
    have hlockne : pathJoin dbRoot dbName ++ ".lock" ≠ pathJoin dbRoot dbName :=
      append_ne_self _ ".lock" (by decide)
    have h2m : ¬ (pathJoin dbRoot dbName ++ ".lock") ∈ fs.files ∧
        ¬ (pathJoin dbRoot dbName ++ ".lock") ∈ fs.dirs := by
      constructor <;> intro hc <;> simp [FS.isExist, hc] at h2
    constructor
    · simp [gmapCreateDB, h1, h2, ht, hb]
    · have hP : (((fs.addFile (pathJoin dbRoot dbName ++ ".lock")).addDir
          (pathJoin dbRoot dbName)).removeFile
            (pathJoin dbRoot dbName ++ ".lock")).isExist (pathJoin dbRoot dbName)
          = true := by
        simp [FS.isExist, FS.addFile, FS.addDir, FS.removeFile]
      have hL : (((fs.addFile (pathJoin dbRoot dbName ++ ".lock")).addDir
          (pathJoin dbRoot dbName)).removeFile
            (pathJoin dbRoot dbName ++ ".lock")).isExist
            (pathJoin dbRoot dbName ++ ".lock") = false := by
        simp [FS.isExist, FS.addFile, FS.addDir, FS.removeFile, List.mem_filter,
          hlockne, h2m.2]
      simp [gmapCreateDB, hP, hL]

/-- Concrete instance of claim C2. -/
theorem claim_C2_witness :
    (gmapCreateDB ⟨true, true⟩ "/r" "db" ⟨[], ["/r/db"], 0⟩
      = (.ok ("/r", "db"), ⟨[], ["/r/db"], 0⟩, 0)) ∧
    (gmapCreateDB ⟨true, true⟩ "/r" "db" ⟨[], [], 0⟩
      = (.ok ("/r", "db"),
         ((FS.addFile ⟨[], [], 0⟩ (pathJoin "/r" "db" ++ ".lock")).addDir
           (pathJoin "/r" "db")).removeFile (pathJoin "/r" "db" ++ ".lock"), 1) ∧
     gmapCreateDB ⟨true, true⟩ "/r" "db"
        (((FS.addFile ⟨[], [], 0⟩ (pathJoin "/r" "db" ++ ".lock")).addDir
          (pathJoin "/r" "db")).removeFile (pathJoin "/r" "db" ++ ".lock"))
      = (.ok ("/r", "db"),
         ((FS.addFile ⟨[], [], 0⟩ (pathJoin "/r" "db" ++ ".lock")).addDir
           (pathJoin "/r" "db")).removeFile (pathJoin "/r" "db" ++ ".lock"), 0)) :=
  ⟨(claim_C2 ⟨true, true⟩ "/r" "db" ⟨[], ["/r/db"], 0⟩).1 (by decide) (by decide),
   (claim_C2 ⟨true, true⟩ "/r" "db" ⟨[], [], 0⟩).2 rfl rfl (by decide) (by decide)⟩

/-- Claim C4: when the external build command exits non-zero, the lock
marker is removed (rm -f) before the fatal error is surfaced, so the
marker does not persist after a failed build. -/
theorem claim_C4 (env : BuildEnv) (dbRoot dbName : String) (fs : FS)
    (ht : env.touchOk = true) (hb : env.buildOk = false)
    (h1 : fs.isExist (pathJoin dbRoot dbName) = false)
    (h2 : fs.isExist (pathJoin dbRoot dbName ++ ".lock") = false) :
    gmapCreateDB env dbRoot dbName fs
      = (.err "Failed to build GMAP db.",
         (fs.addFile (pathJoin dbRoot dbName ++ ".lock")).removeFile
           (pathJoin dbRoot dbName ++ ".lock"), 1) ∧
    ((fs.addFile (pathJoin dbRoot dbName ++ ".lock")).removeFile
        (pathJoin dbRoot dbName ++ ".lock")).isExist
      (pathJoin dbRoot dbName ++ ".lock") = false := by
  have h2m : ¬ (pathJoin dbRoot dbName ++ ".lock") ∈ fs.files ∧
      ¬ (pathJoin dbRoot dbName ++ ".lock") ∈ fs.dirs := by
    constructor <;> intro hc <;> simp [FS.isExist, hc] at h2
  constructor
  · simp [gmapCreateDB, h1, h2, ht, hb]
  · simp [FS.isExist, FS.addFile, FS.removeFile, List.mem_filter, h2m.2]

/-- Concrete instance of claim C4. -/
theorem claim_C4_witness :
    gmapCreateDB ⟨true, false⟩ "/r" "db" ⟨[], [], 0⟩
      = (.err "Failed to build GMAP db.",
         (FS.addFile ⟨[], [], 0⟩ (pathJoin "/r" "db" ++ ".lock")).removeFile
           (pathJoin "/r" "db" ++ ".lock"), 1) ∧
    ((FS.addFile ⟨[], [], 0⟩ (pathJoin "/r" "db" ++ ".lock")).removeFile
        (pathJoin "/r" "db" ++ ".lock")).isExist (pathJoin "/r" "db" ++ ".lock")
      = false :=
  claim_C4 ⟨true, false⟩ "/r" "db" ⟨[], [], 0⟩ rfl rfl (by decide) (by decide)

end Pbalign

namespace Pbalign

/-- The file loop returns normally when `os.remove` succeeds on every
listed file. -/
lemma cleanFilesRev_ok (w : World) (rd : Bool) :
    ∀ (l : List TempFile) (fs : FS), (∀ tf ∈ l, w.removeOk tf.name = true) →
    ∃ fs1, cleanFilesRev w rd l fs = .ok fs1 := by
  intro l
  induction l with
  | nil => intro fs _; exact ⟨fs, rfl⟩
  | cons obj rest ih =>
    intro fs h
    by_cases hg : (rd && obj.own && fs.isExist obj.name) = true
    · have hro := h obj (by simp)
      obtain ⟨fs1, hfs1⟩ := ih (fs.removeFile obj.name)
        (fun tf htf => h tf (by simp [htf]))
      exact ⟨fs1, by simp [cleanFilesRev, hg, hro, hfs1]⟩
    · obtain ⟨fs1, hfs1⟩ := ih fs (fun tf htf => h tf (by simp [htf]))
      exact ⟨fs1, by simp [cleanFilesRev, hg, hfs1]⟩

/-- With `realDelete = False` the file loop never touches the
filesystem. -/
lemma cleanFilesRev_noop (w : World) :
    ∀ (l : List TempFile) (fs : FS), cleanFilesRev w false l fs = .ok fs := by
  intro l
  induction l with
  | nil => intro fs; rfl
  | cons obj rest ih => intro fs; simp [cleanFilesRev, ih]


end Pbalign

namespace Pbalign

/-- Step equation: guarded file entry whose removal succeeds. -/
lemma cleanFilesRev_cons_rm (w : World) (rd : Bool) (obj : TempFile)
    (rest : List TempFile) (fs : FS)
    (hg : (rd && obj.own && fs.isExist obj.name) = true)
    (hro : w.removeOk obj.name = true) :
    cleanFilesRev w rd (obj :: rest) fs
      = cleanFilesRev w rd rest (fs.removeFile obj.name) := by
  simp only [cleanFilesRev]
  rw [if_pos hg, if_pos hro]

/-- Step equation: guarded file entry whose removal fails raises. -/
lemma cleanFilesRev_cons_err (w : World) (rd : Bool) (obj : TempFile)
    (rest : List TempFile) (fs : FS)
    (hg : (rd && obj.own && fs.isExist obj.name) = true)
    (hro : ¬ w.removeOk obj.name = true) :
    cleanFilesRev w rd (obj :: rest) fs
      = .error ("Failed to remove a temporary file " ++ obj.name) := by
  simp only [cleanFilesRev]
  rw [if_pos hg, if_neg hro]

/-- Step equation: unguarded file entry is only popped. -/
lemma cleanFilesRev_cons_skip (w : World) (rd : Bool) (obj : TempFile)
    (rest : List TempFile) (fs : FS)
    (hg : ¬ (rd && obj.own && fs.isExist obj.name) = true) :
    cleanFilesRev w rd (obj :: rest) fs = cleanFilesRev w rd rest fs := by
  simp only [cleanFilesRev]
  rw [if_neg hg]

/-- Step equation: guarded directory entry whose retry loop succeeds. -/
lemma cleanDirsRev_cons_rm (w : World) (rd : Bool) (obj : TempFile)
    (rest : List TempFile) (fs : FS)
    (hg : (rd && obj.own && fs.isExist obj.name) = true)
    (hrm : (rmtreeGo (w.rmtreeFails obj.name) 0 5).2.1 = true) :
    cleanDirsRev w rd (obj :: rest) fs
      = ((cleanDirsRev w rd rest (fs.rmtree obj.name)).1,
         (cleanDirsRev w rd rest (fs.rmtree obj.name)).2
           + (if 5 ≤ (rmtreeGo (w.rmtreeFails obj.name) 0 5).1 then 1 else 0)) := by
  simp only [cleanDirsRev]
  rw [if_pos hg, if_pos hrm]

/-- Step equation: guarded directory entry whose retry loop exhausts. -/
lemma cleanDirsRev_cons_keep (w : World) (rd : Bool) (obj : TempFile)
    (rest : List TempFile) (fs : FS)
    (hg : (rd && obj.own && fs.isExist obj.name) = true)
    (hrm : ¬ (rmtreeGo (w.rmtreeFails obj.name) 0 5).2.1 = true) :
    cleanDirsRev w rd (obj :: rest) fs
      = ((cleanDirsRev w rd rest fs).1,
         (cleanDirsRev w rd rest fs).2
           + (if 5 ≤ (rmtreeGo (w.rmtreeFails obj.name) 0 5).1 then 1 else 0)) := by
  simp only [cleanDirsRev]
  rw [if_pos hg, if_neg hrm]

/-- Step equation: unguarded directory entry is only popped. -/
lemma cleanDirsRev_cons_skip (w : World) (rd : Bool) (obj : TempFile)
    (rest : List TempFile) (fs : FS)
    (hg : ¬ (rd && obj.own && fs.isExist obj.name) = true) :
    cleanDirsRev w rd (obj :: rest) fs = cleanDirsRev w rd rest fs := by
  simp only [cleanDirsRev]
  rw [if_neg hg]

end Pbalign

namespace Pbalign

/-- The file loop only ever deletes: surviving files existed before, and
directories are untouched. -/
lemma cleanFilesRev_subset (w : World) (rd : Bool) :
    ∀ (l : List TempFile) (fs fs1 : FS), cleanFilesRev w rd l fs = .ok fs1 →
    (∀ p, p ∈ fs1.files → p ∈ fs.files) ∧ fs1.dirs = fs.dirs := by
  intro l
  induction l with
  | nil =>
    intro fs fs1 h
    cases h
    exact ⟨fun p hp => hp, rfl⟩
  | cons obj rest ih =>
    intro fs fs1 h
    by_cases hg : (rd && obj.own && fs.isExist obj.name) = true
    · by_cases hro : w.removeOk obj.name = true
      · rw [cleanFilesRev_cons_rm w rd obj rest fs hg hro] at h
        have hrec := ih _ _ h
        refine ⟨fun p hp => ?_, hrec.2⟩
        have hp2 := hrec.1 p hp
        simp only [FS.removeFile, List.mem_filter] at hp2
        exact hp2.1
      · rw [cleanFilesRev_cons_err w rd obj rest fs hg hro] at h
        cases h
    · rw [cleanFilesRev_cons_skip w rd obj rest fs hg] at h
      exact ih _ _ h

/-- With `realDelete = True`, every owned file whose removal succeeds is
gone from the filesystem when the file loop finishes. -/
lemma cleanFilesRev_owned_removed (w : World) :
    ∀ (l : List TempFile) (fs fs1 : FS), cleanFilesRev w true l fs = .ok fs1 →
    ∀ tf ∈ l, tf.own = true → w.removeOk tf.name = true → tf.name ∉ fs1.files := by
  intro l
  induction l with
  | nil => intro fs fs1 _ tf htf; simp at htf
  | cons obj rest ih =>
    intro fs fs1 h tf htf hown hok
    rcases List.mem_cons.mp htf with heq | hmem
    · subst heq
      by_cases hg : (true && tf.own && fs.isExist tf.name) = true
      · rw [cleanFilesRev_cons_rm w true tf rest fs hg hok] at h
        have hsub := (cleanFilesRev_subset w true rest _ _ h).1
        intro hc
        have hp2 := hsub _ hc
        simp [FS.removeFile, List.mem_filter] at hp2
      · rw [cleanFilesRev_cons_skip w true tf rest fs hg] at h
        have hsub := (cleanFilesRev_subset w true rest _ _ h).1
        intro hc
        exact hg (by simp [hown, FS.isExist, hsub _ hc])
    · by_cases hg : (true && obj.own && fs.isExist obj.name) = true
      · by_cases hro : w.removeOk obj.name = true
        · rw [cleanFilesRev_cons_rm w true obj rest fs hg hro] at h
          exact ih _ _ h tf hmem hown hok
        · rw [cleanFilesRev_cons_err w true obj rest fs hg hro] at h
          cases h
      · rw [cleanFilesRev_cons_skip w true obj rest fs hg] at h
        exact ih _ _ h tf hmem hown hok

/-- The file loop never deletes a path that is not the name of some owned
entry of the list it processes. -/
lemma cleanFilesRev_frame (w : World) (rd : Bool) :
    ∀ (l : List TempFile) (fs fs1 : FS), cleanFilesRev w rd l fs = .ok fs1 →
    ∀ p, p ∈ fs.files → (∀ tf ∈ l, tf.own = true → p ≠ tf.name) → p ∈ fs1.files := by
  intro l
  induction l with
  | nil =>
    intro fs fs1 h p hp _
    cases h
    exact hp
  | cons obj rest ih =>
    intro fs fs1 h p hp hne
    by_cases hg : (rd && obj.own && fs.isExist obj.name) = true
    · have hown : obj.own = true := by
        have hg2 := hg
        simp only [Bool.and_eq_true] at hg2
        exact hg2.1.2
      by_cases hro : w.removeOk obj.name = true
      · rw [cleanFilesRev_cons_rm w rd obj rest fs hg hro] at h
        refine ih _ _ h p ?_ (fun tf htf => hne tf (by simp [htf]))
        simp only [FS.removeFile, List.mem_filter]
        exact ⟨hp, by simpa using hne obj (by simp) hown⟩
      · rw [cleanFilesRev_cons_err w rd obj rest fs hg hro] at h
        cases h
    · rw [cleanFilesRev_cons_skip w rd obj rest fs hg] at h
      exact ih _ _ h p hp (fun tf htf => hne tf (by simp [htf]))

/-- With `realDelete = False` the directory loop neither deletes nor
warns. -/
lemma cleanDirsRev_noop (w : World) :
    ∀ (l : List TempFile) (fs : FS), cleanDirsRev w false l fs = (fs, 0) := by
  intro l
  induction l with
  | nil => intro fs; rfl
  | cons obj rest ih => intro fs; simp [cleanDirsRev, ih]

/-- The directory loop only ever deletes. -/
lemma cleanDirsRev_subset (w : World) (rd : Bool) :
    ∀ (l : List TempFile) (fs : FS),
    (∀ p, p ∈ (cleanDirsRev w rd l fs).1.files → p ∈ fs.files) ∧
    (∀ p, p ∈ (cleanDirsRev w rd l fs).1.dirs → p ∈ fs.dirs) := by
  intro l
  induction l with
  | nil => intro fs; exact ⟨fun p hp => hp, fun p hp => hp⟩
  | cons obj rest ih =>
    intro fs
    by_cases hg : (rd && obj.own && fs.isExist obj.name) = true
    · by_cases hrm : (rmtreeGo (w.rmtreeFails obj.name) 0 5).2.1 = true
      · rw [cleanDirsRev_cons_rm w rd obj rest fs hg hrm]
        constructor
        · intro p hp
          have hp2 := (ih (fs.rmtree obj.name)).1 p hp
          simp only [FS.rmtree, List.mem_filter] at hp2
          exact hp2.1
        · intro p hp
          have hp2 := (ih (fs.rmtree obj.name)).2 p hp
          simp only [FS.rmtree, List.mem_filter] at hp2
          exact hp2.1
      · rw [cleanDirsRev_cons_keep w rd obj rest fs hg hrm]
        exact ⟨(ih fs).1, (ih fs).2⟩
    · rw [cleanDirsRev_cons_skip w rd obj rest fs hg]
      exact ih fs

/-- With `realDelete = True`, every owned directory whose rmtree needs
fewer than 5 attempts is gone when the directory loop finishes. -/
lemma cleanDirsRev_owned_removed (w : World) :
    ∀ (l : List TempFile) (fs : FS), ∀ tf ∈ l, tf.own = true →
    w.rmtreeFails tf.name < 5 → tf.name ∉ (cleanDirsRev w true l fs).1.dirs := by
  intro l
  induction l with
  | nil => intro fs tf htf; simp at htf
  | cons obj rest ih =>
    intro fs tf htf hown hf
    rcases List.mem_cons.mp htf with heq | hmem
    · subst heq
      by_cases hg : (true && tf.own && fs.isExist tf.name) = true
      · have hrm : (rmtreeGo (w.rmtreeFails tf.name) 0 5).2.1 = true := by
          rw [rmtreeGo_lt _ hf]
        rw [cleanDirsRev_cons_rm w true tf rest fs hg hrm]
        intro hc
        have hp2 := (cleanDirsRev_subset w true rest (fs.rmtree tf.name)).2 _ hc
        simp [FS.rmtree, List.mem_filter, underOrEq] at hp2
      · rw [cleanDirsRev_cons_skip w true tf rest fs hg]
        intro hc
        have hmemd := (cleanDirsRev_subset w true rest fs).2 _ hc
        exact hg (by simp [hown, FS.isExist, hmemd])
    · by_cases hg : (true && obj.own && fs.isExist obj.name) = true
      · by_cases hrm : (rmtreeGo (w.rmtreeFails obj.name) 0 5).2.1 = true
        · rw [cleanDirsRev_cons_rm w true obj rest fs hg hrm]
          exact ih _ tf hmem hown hf
        · rw [cleanDirsRev_cons_keep w true obj rest fs hg hrm]
          exact ih _ tf hmem hown hf
      · rw [cleanDirsRev_cons_skip w true obj rest fs hg]
        exact ih _ tf hmem hown hf

/-- The directory loop never deletes a path lying outside every owned
entry of the list it processes. -/
lemma cleanDirsRev_frame (w : World) (rd : Bool) :
    ∀ (l : List TempFile) (fs : FS) (p : String),
    (∀ tf ∈ l, tf.own = true → underOrEq tf.name p = false) →
    (p ∈ fs.files → p ∈ (cleanDirsRev w rd l fs).1.files) ∧
    (p ∈ fs.dirs → p ∈ (cleanDirsRev w rd l fs).1.dirs) := by
  intro l
  induction l with
  | nil => intro fs p _; exact ⟨fun hp => hp, fun hp => hp⟩
  | cons obj rest ih =>
    intro fs p hne
    have hrest : ∀ tf ∈ rest, tf.own = true → underOrEq tf.name p = false :=
      fun tf htf => hne tf (by simp [htf])
    by_cases hg : (rd && obj.own && fs.isExist obj.name) = true
    · have hown : obj.own = true := by
        have hg2 := hg
        simp only [Bool.and_eq_true] at hg2
        exact hg2.1.2
      have hobj := hne obj (by simp) hown
      by_cases hrm : (rmtreeGo (w.rmtreeFails obj.name) 0 5).2.1 = true
      · rw [cleanDirsRev_cons_rm w rd obj rest fs hg hrm]
        constructor
        · intro hp
          refine (ih (fs.rmtree obj.name) p hrest).1 ?_
          simp only [FS.rmtree, List.mem_filter]
          exact ⟨hp, by simp [hobj]⟩
        · intro hp
          refine (ih (fs.rmtree obj.name) p hrest).2 ?_
          simp only [FS.rmtree, List.mem_filter]
          exact ⟨hp, by simp [hobj]⟩
      · rw [cleanDirsRev_cons_keep w rd obj rest fs hg hrm]
        exact ih fs p hrest
    · rw [cleanDirsRev_cons_skip w rd obj rest fs hg]
      exact ih fs p hrest

end Pbalign

namespace Pbalign

/-- Claim C1 as amended: CleanUp never raises from the directory phase —
rmtree failures are retried, warned about, and iteration continues, for
every value of `rmtreeFails` — and it returns normally whenever every
registered file can be removed; but a failing `os.remove` on a
registered owned file is not caught and propagates (see the
counterexample). -/
theorem claim_C1 (w : World) (m : TempFileManager) (fs : FS) (realDelete : Bool)
    (h : ∀ tf ∈ m.fileDB, w.removeOk tf.name = true) :
    exceptIsOk (m.CleanUp w fs realDelete) = true := by
  obtain ⟨fs1, hfs1⟩ := cleanFilesRev_ok w realDelete m.fileDB.reverse fs
    (fun tf htf => h tf (List.mem_reverse.mp htf))
  simp [TempFileManager.CleanUp, hfs1, exceptIsOk]

/-- Concrete instance of the amended claim C1: every file removal
succeeds, the directory deletion fails all its retries, and CleanUp still
returns normally. -/
theorem claim_C1_witness :
    exceptIsOk (TempFileManager.CleanUp ⟨fun _ => true, fun _ => 9⟩
      ⟨"/t", [⟨"/t/f", true, false⟩], [⟨"/t", true, true⟩]⟩
      ⟨["/t/f"], ["/t"], 0⟩ true) = true :=
  claim_C1 ⟨fun _ => true, fun _ => 9⟩
    ⟨"/t", [⟨"/t/f", true, false⟩], [⟨"/t", true, true⟩]⟩
    ⟨["/t/f"], ["/t"], 0⟩ true (fun _ _ => rfl)

/-- Claim C5 as amended: whenever CleanUp returns normally, both registry
collections are empty and the working root is cleared, for either value
of realDelete; with realDelete = True every owned file whose removal
succeeds and every owned directory whose recursive deletion succeeds
within 5 attempts is gone (an owned directory failing all 5 attempts may
survive — see the counterexample); resources that are not the name of an
owned entry and do not lie under an owned directory entry are never
deleted; with realDelete = False the filesystem is untouched. -/
theorem claim_C5 (w : World) (m : TempFileManager) (fs : FS) (realDelete : Bool)
    (m2 : TempFileManager) (fs2 : FS) (warns : Nat)
    (h : m.CleanUp w fs realDelete = .ok (m2, fs2, warns)) :
    m2.fileDB = [] ∧ m2.dirDB = [] ∧ m2.defaultRootDir = "" ∧
    (realDelete = false → fs2 = fs) ∧
    (realDelete = true →
      (∀ tf ∈ m.fileDB, tf.own = true → w.removeOk tf.name = true →
        tf.name ∉ fs2.files) ∧
      (∀ tf ∈ m.dirDB, tf.own = true → w.rmtreeFails tf.name < 5 →
        tf.name ∉ fs2.dirs) ∧
      (∀ p ∈ fs.files, (∀ tf ∈ m.fileDB, tf.own = true → p ≠ tf.name) →
        (∀ tf ∈ m.dirDB, tf.own = true → underOrEq tf.name p = false) →
        p ∈ fs2.files) ∧
      (∀ p ∈ fs.dirs, (∀ tf ∈ m.dirDB, tf.own = true → underOrEq tf.name p = false) →
        p ∈ fs2.dirs)) := by
  rcases he : cleanFilesRev w realDelete m.fileDB.reverse fs with e | fs1
  · rw [TempFileManager.CleanUp, he] at h
    cases h
  · rw [TempFileManager.CleanUp, he] at h
    injection h with hinj
    injection hinj with h1 h2
    injection h2 with h2a h2b
    subst h1
    subst h2a
    subst h2b
    refine ⟨rfl, rfl, rfl, ?_, ?_⟩
    · intro hrd
      subst hrd
      have hfiles : fs1 = fs := by
        have hn := cleanFilesRev_noop w m.fileDB.reverse fs
        rw [hn] at he
        exact (Except.ok.inj he).symm
      subst hfiles
      rw [cleanDirsRev_noop w m.dirDB.reverse fs1]
    · intro hrd
      subst hrd
      refine ⟨?_, ?_, ?_, ?_⟩
      · intro tf htf hown hok
        have h1 : tf.name ∉ fs1.files :=
          cleanFilesRev_owned_removed w m.fileDB.reverse fs fs1 he tf
            (List.mem_reverse.mpr htf) hown hok
        intro hc
        exact h1 ((cleanDirsRev_subset w true m.dirDB.reverse fs1).1 _ hc)
      · intro tf htf hown hf
        exact cleanDirsRev_owned_removed w m.dirDB.reverse fs1 tf
          (List.mem_reverse.mpr htf) hown hf
      · intro p hp hnf hnd
        have h1 : p ∈ fs1.files :=
          cleanFilesRev_frame w true m.fileDB.reverse fs fs1 he p hp
            (fun tf htf => hnf tf (List.mem_reverse.mp htf))
        exact (cleanDirsRev_frame w true m.dirDB.reverse fs1 p
          (fun tf htf => hnd tf (List.mem_reverse.mp htf))).1 h1
      · intro p hp hnd
        have h1 : p ∈ fs1.dirs := by
          rw [(cleanFilesRev_subset w true m.fileDB.reverse fs fs1 he).2]
          exact hp
        exact (cleanDirsRev_frame w true m.dirDB.reverse fs1 p
          (fun tf htf => hnd tf (List.mem_reverse.mp htf))).2 h1

/-- Concrete instance of the amended claim C5: the owned file and the
owned directory are deleted, the unrelated file and directory survive. -/
theorem claim_C5_witness :
    "/t/f" ∉ FS.files ⟨["/keep"], ["/other"], 0⟩ ∧
    "/t/d" ∉ FS.dirs ⟨["/keep"], ["/other"], 0⟩ ∧
    "/keep" ∈ FS.files ⟨["/keep"], ["/other"], 0⟩ ∧
    "/other" ∈ FS.dirs ⟨["/keep"], ["/other"], 0⟩ := by
  have hc := claim_C5 ⟨fun _ => true, fun _ => 0⟩
    ⟨"/t", [⟨"/t/f", true, false⟩], [⟨"/t/d", true, true⟩]⟩
    ⟨["/t/f", "/keep"], ["/t/d", "/other"], 0⟩ true ⟨"", [], []⟩
    ⟨["/keep"], ["/other"], 0⟩ 0 rfl
  have h5 := hc.2.2.2.2 rfl
  refine ⟨h5.1 ⟨"/t/f", true, false⟩ (by simp) rfl rfl,
          h5.2.1 ⟨"/t/d", true, true⟩ (by simp) rfl (by decide),
          h5.2.2.1 "/keep" (by simp) ?_ ?_,
          h5.2.2.2 "/other" (by simp) ?_⟩
  · intro tf htf hown
    simp only [List.mem_singleton] at htf
    subst htf
    decide
  · intro tf htf hown
    simp only [List.mem_singleton] at htf
    subst htf
    decide
  · intro tf htf hown
    simp only [List.mem_singleton] at htf
    subst htf
    decide

end Pbalign

namespace Pbalign

/-- A five-part concatenation with a nonempty head is nonempty. -/
lemma append5_ne_empty (a b c d e : String) (ha : a ≠ "") :
    a ++ b ++ c ++ d ++ e ≠ "" :=
  append_ne_empty_left _ e (append_ne_empty_left _ d (append_ne_empty_left _ c
    (append_ne_empty_left a b ha)))

/-- On an already-registered path the final `errMsg` of the adoption
checks is never empty. -/
lemma registerExistingErrMsg_ne (norm : String → String) (m : TempFileManager)
    (fs : FS) (p : String) (isDir : Bool) (h : m.isRegistered norm p = true) :
    registerExistingErrMsg norm m fs p isDir ≠ "" := by
  simp only [registerExistingErrMsg]
  by_cases he : (!(fs.isExist p)) = true
  · rw [if_pos he]
    exact append5_ne_empty "Failed to register " _ " " p
      " as it does not exist." (by decide)
  · rw [if_neg he, if_pos h]
    exact append5_ne_empty "Failed to register " _ " " p
      " as it has been registered." (by decide)

/-- With an idempotent normalizer, `_isRegistered` on a normalized path
is exactly membership in the combined name list. -/
lemma isRegistered_decide (norm : String → String)
    (hnorm : ∀ s, norm (norm s) = norm s) (m : TempFileManager) (q : String) :
    m.isRegistered norm (norm q) = decide (norm q ∈ regNames m) := by
  simp only [TempFileManager.isRegistered, hnorm]
  by_cases hA : norm q ∈ m.fileDB.map TempFile.name
  · simp [hA, regNames, List.mem_append]
  · by_cases hB : norm q ∈ m.dirDB.map TempFile.name
    · simp [hA, hB, regNames, List.mem_append]
    · simp [hA, hB, regNames, List.mem_append]

/-- Appending a fresh name to either collection keeps the combined name
list duplicate-free. -/
lemma regNames_RegisterTmpFile_nodup (m : TempFileManager) (tf : TempFile)
    (hn : (regNames m).Nodup) (hx : tf.name ∉ regNames m) :
    (regNames (m.RegisterTmpFile tf).2).Nodup := by
  unfold TempFileManager.RegisterTmpFile
  by_cases hd : tf.isDir = true
  · rw [if_pos hd]
    show (m.fileDB.map TempFile.name ++ (m.dirDB ++ [tf]).map TempFile.name).Nodup
    rw [List.map_append, ← List.append_assoc]
    refine List.Nodup.append hn (List.nodup_singleton _) ?_
    intro a ha hb
    rw [List.map_singleton, List.mem_singleton] at hb
    subst hb
    exact hx ha
  · rw [if_neg hd]
    show ((m.fileDB ++ [tf]).map TempFile.name ++ m.dirDB.map TempFile.name).Nodup
    rw [List.map_append, List.append_assoc, List.map_singleton,
      List.singleton_append]
    exact List.nodup_middle.mpr (List.nodup_cons.mpr ⟨hx, hn⟩)

/-- Nodup preservation through `registerNewUnder`. -/
lemma registerNewUnder_nodup (norm : String → String)
    (hnorm : ∀ s, norm (norm s) = norm s) (m : TempFileManager) (fs : FS)
    (isDir : Bool) (rootDir sfx pfx : String)
    (hn : (regNames m).Nodup) :
    (regNames (m.registerNewUnder norm fs isDir rootDir sfx pfx).2.1).Nodup := by
  simp only [TempFileManager.registerNewUnder]
  generalize (if isDir then fs.mkdtemp rootDir sfx pfx
    else fs.mkstemp rootDir sfx pfx) = pr
  by_cases hb : m.isRegistered norm (norm pr.1) = true
  · rw [if_pos hb]
    exact hn
  · rw [if_neg hb]
    have hx : norm pr.1 ∉ regNames m := by
      intro hc
      rw [isRegistered_decide norm hnorm m pr.1] at hb
      exact hb (decide_eq_true hc)
    exact regNames_RegisterTmpFile_nodup m ⟨norm pr.1, true, isDir⟩ hn hx

/-- Claim C9: a path occurs in the registry at most once.  Adopting an
already-registered path raises and leaves the registry unchanged; if the
path generated for a new temporary resource is somehow already
registered, the defensive check of RegisterNewTmpFile raises and leaves
the registry unchanged; and both registration operations preserve
duplicate-freedom of the combined name list.  `norm` is the path
normalizer (abspath of expanduser), assumed idempotent. -/
theorem claim_C9 (norm : String → String)
    (hnorm : ∀ s, norm (norm s) = norm s) :
    (∀ (m : TempFileManager) (fs : FS) (p : String) (own isDir : Bool),
      m.isRegistered norm p = true →
      exceptIsOk (m.RegisterExistingTmpFile norm fs p own isDir).1 = false ∧
      (m.RegisterExistingTmpFile norm fs p own isDir).2 = m) ∧
    (∀ (m : TempFileManager) (fs : FS) (isDir : Bool) (rootDir sfx pfx : String),
      m.isRegistered norm
        (norm (if isDir then fs.mkdtemp rootDir sfx pfx
               else fs.mkstemp rootDir sfx pfx).1) = true →
      exceptIsOk (m.registerNewUnder norm fs isDir rootDir sfx pfx).1 = false ∧
      (m.registerNewUnder norm fs isDir rootDir sfx pfx).2.1 = m) ∧
    (∀ (m : TempFileManager) (fs : FS) (p : String) (own isDir : Bool),
      (regNames m).Nodup →
      (regNames (m.RegisterExistingTmpFile norm fs p own isDir).2).Nodup) ∧
    (∀ (m : TempFileManager) (fs : FS) (isDir : Bool) (rootDir sfx pfx : String),
      (regNames m).Nodup →
      (regNames (m.RegisterNewTmpFile norm fs isDir rootDir sfx pfx).2.1).Nodup) := by
  refine ⟨?_, ?_, ?_, ?_⟩
  · intro m fs p own isDir hreg
    have hreg2 : m.isRegistered norm (norm p) = true := by
      simpa [TempFileManager.isRegistered, hnorm] using hreg
    have hne := registerExistingErrMsg_ne norm m fs (norm p) isDir hreg2
    constructor
    · simp only [TempFileManager.RegisterExistingTmpFile]
      rw [if_pos hne]
      rfl
    · simp only [TempFileManager.RegisterExistingTmpFile]
      rw [if_pos hne]
  · intro m fs isDir rootDir sfx pfx hreg
    constructor
    · simp only [TempFileManager.registerNewUnder]
      rw [if_pos hreg]
      rfl
    · simp only [TempFileManager.registerNewUnder]
      rw [if_pos hreg]
  · intro m fs p own isDir hn
    simp only [TempFileManager.RegisterExistingTmpFile]
    by_cases hne : registerExistingErrMsg norm m fs (norm p) isDir ≠ ""
    · rw [if_pos hne]
      exact hn
    · rw [if_neg hne]
      cases hb : m.isRegistered norm (norm p) with
      | true =>
        exact absurd (registerExistingErrMsg_ne norm m fs (norm p) isDir hb)
          (not_not_intro (not_ne_iff.mp hne))
      | false =>
        have hx : norm p ∉ regNames m := by
          intro hc
          rw [isRegistered_decide norm hnorm m p] at hb
          exact absurd hc (of_decide_eq_false hb)
        exact regNames_RegisterTmpFile_nodup m ⟨norm p, own, isDir⟩ hn hx
  · intro m fs isDir rootDir sfx pfx hn
    simp only [TempFileManager.RegisterNewTmpFile]
    by_cases h0 : rootDir = ""
    · rw [if_pos h0]
      by_cases h1 : m.defaultRootDir = ""
      · rw [if_pos h1]
        exact hn
      · rw [if_neg h1]
        exact registerNewUnder_nodup norm hnorm m fs isDir m.defaultRootDir sfx pfx hn
    · rw [if_neg h0]
      exact registerNewUnder_nodup norm hnorm m fs isDir rootDir sfx pfx hn

end Pbalign

namespace Pbalign

/-- Concrete instance of claim C9 with the identity normalizer. -/
theorem claim_C9_witness :
    (exceptIsOk (TempFileManager.RegisterExistingTmpFile id
        ⟨"", [⟨"/a", true, false⟩], []⟩ ⟨["/a"], [], 0⟩ "/a" true false).1 = false ∧
      (TempFileManager.RegisterExistingTmpFile id
        ⟨"", [⟨"/a", true, false⟩], []⟩ ⟨["/a"], [], 0⟩ "/a" true false).2
        = ⟨"", [⟨"/a", true, false⟩], []⟩) ∧
    (exceptIsOk (TempFileManager.registerNewUnder id
        ⟨"", [⟨"/r/tmp0", true, false⟩], []⟩ ⟨[], [], 0⟩ false "/r" "" "").1 = false ∧
      (TempFileManager.registerNewUnder id
        ⟨"", [⟨"/r/tmp0", true, false⟩], []⟩ ⟨[], [], 0⟩ false "/r" "" "").2.1
        = ⟨"", [⟨"/r/tmp0", true, false⟩], []⟩) ∧
    (regNames (TempFileManager.RegisterExistingTmpFile id
        ⟨"", [⟨"/a", true, false⟩], []⟩ ⟨["/a", "/b"], [], 0⟩ "/b" true false).2).Nodup ∧
    (regNames (TempFileManager.RegisterNewTmpFile id
        ⟨"/r", [⟨"/a", true, false⟩], []⟩ ⟨[], ["/r"], 0⟩ false "" "" "").2.1).Nodup :=
  ⟨(claim_C9 id (fun _ => rfl)).1 ⟨"", [⟨"/a", true, false⟩], []⟩
      ⟨["/a"], [], 0⟩ "/a" true false (by decide),
   (claim_C9 id (fun _ => rfl)).2.1 ⟨"", [⟨"/r/tmp0", true, false⟩], []⟩
      ⟨[], [], 0⟩ false "/r" "" "" (by decide),
   (claim_C9 id (fun _ => rfl)).2.2.1 ⟨"", [⟨"/a", true, false⟩], []⟩
      ⟨["/a", "/b"], [], 0⟩ "/b" true false (by decide),
   (claim_C9 id (fun _ => rfl)).2.2.2 ⟨"/r", [⟨"/a", true, false⟩], []⟩
      ⟨[], ["/r"], 0⟩ false "" "" "" (by decide)⟩

end Pbalign
